import Mathlib

/-!
# Chat relay bot: classification, validation and dispatch

A shallow embedding of `bot.go` and of the command branch of the loop in
`main.go`.

* Go pointers and slices that the code only compares with `nil` are `Option`s.
* A Go `error` result is an `Option String`: `none` is `nil`, `some s` is an
  error whose message is `s`.
* `int` and `int64` fields are `Int`; the code only compares them with `0`.
* A Go `map[bool]string` is a function `Bool → Option String`; the order in
  which `range` visits its keys is not fixed by the language, so it is an
  explicit argument of the functions that iterate.
-/

namespace TelegramBot

/-! ## Data model -/

/-- The `tgbotapi.User` record, reduced to the field the bot reads. -/
structure User where
  ID : Int
  deriving DecidableEq, Repr

/-- The `tgbotapi.Chat` record, reduced to the field the bot reads. -/
structure Chat where
  ID : Int
  deriving DecidableEq, Repr

/-- Any attached media object (`Animation`, `Audio`, `PhotoSize`, ...): the bot
never looks inside, it only tests the pointer. -/
structure Attachment where
  FileID : String
  deriving DecidableEq, Repr

/-- The fields of `tgbotapi.Message` read by `bot.go`. -/
structure Message where
  MessageID : Int := 0
  From : Option User := none
  Chat : Option Chat := none
  EditDate : Int := 0
  Text : String := ""
  Animation : Option Attachment := none
  Audio : Option Attachment := none
  Photo : Option (List Attachment) := none
  Sticker : Option Attachment := none
  Video : Option Attachment := none
  Voice : Option Attachment := none
  Document : Option Attachment := none
  VideoNote : Option Attachment := none
  ForwardFrom : Option User := none
  ForwardFromChat : Option TelegramBot.Chat := none
  deriving DecidableEq, Repr

/-- The `tgbotapi.Update` record: the two message slots `bot.go` reads, and
other slots of the platform record that it never reads. -/
structure Update where
  UpdateID : Int := 0
  Message : Option Message := none
  EditedMessage : Option TelegramBot.Message := none
  ChannelPost : Option TelegramBot.Message := none
  EditedChannelPost : Option TelegramBot.Message := none
  deriving DecidableEq, Repr

/-- The `MessageSend` struct of `bot.go`. -/
structure MessageSend where
  ChatId : Int := 0
  ReplyToMessageId : Int := 0
  Text : String := ""
  deriving DecidableEq, Repr

/-! ## `MessageSend.Validate` and `MessageSend.PopulateFromJson` -/

/-- The slice `validationErrors` after the two `if` statements of `Validate`. -/
def MessageSend.validationErrors (msg : MessageSend) : List String :=
  let errs : List String := []
  let errs := if msg.ChatId = 0 then errs ++ ["no chat id"] else errs
  let errs := if msg.Text = "" then errs ++ ["no text"] else errs
  errs

/-- Go: `func (msg *MessageSend) Validate() error`. A slice is `nil` exactly when
nothing was appended to it. -/
def MessageSend.Validate (msg : MessageSend) : Option String :=
  let errs := msg.validationErrors
  if errs ≠ [] then some (String.intercalate ", " errs) else none

/-- Go: `func (msg *MessageSend) PopulateFromJson(str string) error`.
`unmarshal` stands for `json.Unmarshal` from the standard library: given the
text and the record to fill, it fails or returns the filled record. -/
def MessageSend.PopulateFromJson
    (unmarshal : String → MessageSend → Except String MessageSend)
    (msg : MessageSend) (str : String) : Except String MessageSend :=
  match unmarshal str msg with
  | .error err => .error err
  | .ok msg =>
    match msg.Validate with
    | some err => .error err
    | none => .ok msg

/-! ## `GetUpdateMessage` -/

/-- Go: `func GetUpdateMessage(update *tgbotapi.Update) (*tgbotapi.Message, error)`. -/
def GetUpdateMessage (update : Update) : Except String Message :=
  match update.Message with
  | some m => .ok m
  | none =>
    match update.EditedMessage with
    | some m => .ok m
    | none => .error "no message"

/-! ## `GetMessageTypes` -/

/-- A Go `map[bool]string`. -/
abbrev BoolMap := Bool → Option String

/-- The empty map. -/
def BoolMap.empty : BoolMap := fun _ => none

/-- The assignment `m[k] = v`: a value already stored under `k` is replaced. -/
def BoolMap.set (m : BoolMap) (k : Bool) (v : String) : BoolMap :=
  fun k1 => if k1 = k then some v else m k1

/-- A map literal whose keys are not constants: its entries are stored one
after the other, in the order they are written. -/
def BoolMap.literal (entries : List (Bool × String)) : BoolMap :=
  entries.foldl (fun m e => m.set e.1 e.2) BoolMap.empty

/-- The key/value pairs visited by `for k, v := range m`. The language leaves
the order open; `falseFirst` picks which of the two keys is visited first. -/
def BoolMap.range (m : BoolMap) (falseFirst : Bool) : List (Bool × String) :=
  (if falseFirst then [false, true] else [true, false]).filterMap
    (fun k => (m k).map (fun v => (k, v)))

/-- The entries of the literal `fieldTypes` in `GetMessageTypes`, as written. -/
def fieldTypeEntries (message : Message) : List (Bool × String) :=
  [ (decide (message.Animation ≠ none), "animation"),
    (decide (message.Text ≠ ""), "text"),
    (decide (message.Audio ≠ none), "audio"),
    (decide (message.Photo ≠ none), "photo"),
    (decide (message.Sticker ≠ none), "sticker"),
    (decide (message.Video ≠ none), "video"),
    (decide (message.Voice ≠ none), "voice"),
    (decide (message.Document ≠ none), "file"),
    (decide (message.VideoNote ≠ none), "videoNote"),
    (decide (message.ForwardFrom ≠ none), "forward"),
    (decide (message.ForwardFromChat ≠ none), "repost") ]

/-- The loop `for exists, value := range fieldTypes` of `GetMessageTypes`,
started with the slice `types`. -/
def collectTypes (types : List String) : List (Bool × String) → List String
  | [] => types
  | (found, value) :: rest =>
    if found = true then collectTypes (types ++ [value]) rest
    else collectTypes types rest

/-- Go: `func GetMessageTypes(message *tgbotapi.Message) *[]string`. -/
def GetMessageTypes (falseFirst : Bool) (message : Message) : List String :=
  let types : List String := []
  if message.EditDate ≠ 0 then
    types ++ ["edited"]
  else
    let fieldTypes := BoolMap.literal (fieldTypeEntries message)
    collectTypes types (fieldTypes.range falseFirst)

/-! ## `MapMessageTypes` -/

/-- The literal `typesMap` of `MapMessageTypes`, as written. -/
def typesMap : List (String × String) :=
  [ ("video", "media"),
    ("photo", "media"),
    ("file", "media"),
    ("text", "text"),
    ("animation", "reaction"),
    ("sticker", "reaction"),
    ("voice", "social_whore"),
    ("videoNote", "social_whore"),
    ("repost", "content"),
    ("edited", "grammar_nazi"),
    ("forward", "proof_checker") ]

/-- The index expression `typesMap[typeName]`: a key that is not in the map
reads as the zero value of the element type, the empty string. -/
def typesMapAt (typeName : String) : String :=
  (typesMap.lookup typeName).getD ""

/-- The loop of `MapMessageTypes`: `uniqueMap` is the set of the keys marked so
far, `mappedTypes` the slice built so far. -/
def mapLoop (uniqueMap : List String) (mappedTypes : List String) :
    List String → List String
  | [] => mappedTypes
  | typeName :: rest =>
    if typeName ∉ uniqueMap then
      mapLoop (typeName :: uniqueMap) (mappedTypes ++ [typesMapAt typeName]) rest
    else
      mapLoop uniqueMap mappedTypes rest

/-- Go: `func MapMessageTypes(types *[]string) []string`. -/
def MapMessageTypes (types : List String) : List String :=
  mapLoop [] [] types

/-! ## The command branch of the loop in `main` -/

/-- What one turn of the loop does to the outside world. -/
inductive Effect where
  /-- The call `fmt.Println(...)` with the line it prints. -/
  | Println (line : String)
  /-- The call `bot.ReplyToMessage(chatId, replyToMessageId, text)`. -/
  | ReplyToMessage (chatId : Int) (replyToMessageId : Int) (text : String)
  /-- The call `bot.Send(chatId, text)`. -/
  | Send (chatId : Int) (text : String)
  deriving DecidableEq, Repr

/-- Whether an effect is a call on the platform client. -/
def Effect.isPlatformCall : Effect → Bool
  | .Println _ => false
  | .ReplyToMessage _ _ _ => true
  | .Send _ _ => true

/-- The case `msg := <-msgSendS` of the loop in `main`: the effects of one
command string taken from the broker. -/
def handleCommand
    (unmarshal : String → MessageSend → Except String MessageSend)
    (msg : String) : List Effect :=
  let message : MessageSend := {}
  match MessageSend.PopulateFromJson unmarshal message msg with
  | .error err =>
    [Effect.Println ("Unable to get message from 'telegram-send' topic " ++ err ++ "\n")]
  | .ok message =>
    if message.ReplyToMessageId ≠ 0 then
      [Effect.ReplyToMessage message.ChatId message.ReplyToMessageId message.Text]
    else
      [Effect.Send message.ChatId message.Text]

/-- The platform calls made for one command string. -/
def platformCalls
    (unmarshal : String → MessageSend → Except String MessageSend)
    (msg : String) : List Effect :=
  (handleCommand unmarshal msg).filter Effect.isPlatformCall

/-! ## Vocabulary used in the statements -/

/-- The elements of a list in the order of their first occurrence, each once. -/
def firstOccurrences : List String → List String
  | [] => []
  | t :: rest => t :: (firstOccurrences rest).filter (fun u => u ≠ t)

/-- The categories of the fixed mapping: the values of `typesMap`. -/
def categories : List String := typesMap.map Prod.snd

/-- The eleven raw tags the canonical taxonomy is defined on, as the
specification lists them. -/
def canonicalTags : List String :=
  ["video", "photo", "file", "text", "animation", "sticker", "voice",
   "videoNote", "repost", "edited", "forward"]

/-- The seven groups of the canonical taxonomy, as the specification lists
them. -/
def canonicalGroups : List (List String) :=
  [["video", "photo", "file"], ["text"], ["animation", "sticker"],
   ["voice", "videoNote"], ["repost"], ["edited"], ["forward"]]

/-- The closed raw-tag vocabulary: the tags `GetMessageTypes` can put into its
result. -/
def rawTagVocabulary : List String :=
  ["edited", "animation", "text", "audio", "photo", "sticker", "video", "voice",
   "file", "videoNote", "forward", "repost"]

/-- The tag of the last true condition, read off the fields of the message:
the conditions are tried from the last one written (`ForwardFromChat`) back to
the first (`Animation`), and the first that holds gives the tag; when none
holds there is no tag. -/
def lastTrueTag (message : Message) : List String :=
  if message.ForwardFromChat ≠ none then ["repost"]
  else if message.ForwardFrom ≠ none then ["forward"]
  else if message.VideoNote ≠ none then ["videoNote"]
  else if message.Document ≠ none then ["file"]
  else if message.Voice ≠ none then ["voice"]
  else if message.Video ≠ none then ["video"]
  else if message.Sticker ≠ none then ["sticker"]
  else if message.Photo ≠ none then ["photo"]
  else if message.Audio ≠ none then ["audio"]
  else if message.Text ≠ "" then ["text"]
  else if message.Animation ≠ none then ["animation"]
  else []

/-- A decoder for the examples: it knows three command strings and rejects
every other text. -/
def sampleUnmarshal (str : String) (msg : MessageSend) : Except String MessageSend :=
  if str = "reply" then .ok { msg with ChatId := 555, ReplyToMessageId := 9, Text := "ok" }
  else if str = "send" then .ok { msg with ChatId := 555, Text := "ok" }
  else if str = "empty" then .ok { msg with ChatId := 0, Text := "" }
  else .error "invalid character"

/-! ## Helper lemmas -/

/-- Entries whose key is `false` leave the slot of `true` alone. -/
theorem foldl_set_all_false (entries : List (Bool × String)) (m0 : BoolMap)
    (h : ∀ e ∈ entries, e.1 = false) :
    (entries.foldl (fun m e => BoolMap.set m e.1 e.2) m0) true = m0 true := by
  induction entries generalizing m0 with
  | nil => rfl
  | cons e rest ih =>
    have he : e.1 = false := h e (List.mem_cons_self _ _)
    have hr : ∀ x ∈ rest, x.1 = false := fun x hx => h x (List.mem_cons_of_mem _ hx)
    simp only [List.foldl_cons]
    rw [ih _ hr]
    simp [BoolMap.set, he]

/-- The slot of `true` in a literal none of whose keys is `true` is empty. -/
theorem literal_true_of_all_false (entries : List (Bool × String))
    (h : ∀ e ∈ entries, e.1 = false) : BoolMap.literal entries true = none := by
  unfold BoolMap.literal
  rw [foldl_set_all_false entries _ h]
  rfl

/-- The slot of `true` in a literal holds the value of the last entry whose key
is `true`. -/
theorem literal_true_of_last (pre post : List (Bool × String)) (tag : String)
    (h : ∀ e ∈ post, e.1 = false) :
    BoolMap.literal (pre ++ (true, tag) :: post) true = some tag := by
  unfold BoolMap.literal
  rw [List.foldl_append, List.foldl_cons, foldl_set_all_false post _ h]
  simp [BoolMap.set]

/-- The loop over a `map[bool]string` appends the value stored under `true`, if
there is one, in whichever order the two keys are visited. -/
theorem collectTypes_range (m : BoolMap) (falseFirst : Bool) :
    collectTypes [] (m.range falseFirst) = (m true).toList := by
  cases falseFirst <;> cases ht : m true <;> cases hf : m false <;>
    simp [BoolMap.range, collectTypes, ht, hf]

/-- When the message is not an edit, the result is the value stored under
`true` in the literal. -/
theorem GetMessageTypes_eq (falseFirst : Bool) (message : Message)
    (h : message.EditDate = 0) :
    GetMessageTypes falseFirst message
      = (BoolMap.literal (fieldTypeEntries message) true).toList := by
  simp [GetMessageTypes, h, collectTypes_range]

/-- The function `GetMessageTypes` never returns two tags. -/
theorem GetMessageTypes_length_le (falseFirst : Bool) (message : Message) :
    (GetMessageTypes falseFirst message).length ≤ 1 := by
  by_cases h : message.EditDate = 0
  · rw [GetMessageTypes_eq falseFirst message h]
    cases BoolMap.literal (fieldTypeEntries message) true <;> simp
  · simp [GetMessageTypes, h]

/-- Every element occurs among the first occurrences. -/
theorem mem_firstOccurrences (t : String) (l : List String) :
    t ∈ firstOccurrences l ↔ t ∈ l := by
  induction l with
  | nil => simp [firstOccurrences]
  | cons a rest ih =>
    by_cases hta : t = a
    · simp [firstOccurrences, hta]
    · simp [firstOccurrences, hta, ih]

/-- The loop of `MapMessageTypes` from any intermediate state: it appends the
image of the first occurrences of the tags not yet marked. -/
theorem mapLoop_eq (uniqueMap mappedTypes types : List String) :
    mapLoop uniqueMap mappedTypes types
      = mappedTypes
        ++ ((firstOccurrences types).filter (fun u => u ∉ uniqueMap)).map typesMapAt := by
  induction types generalizing uniqueMap mappedTypes with
  | nil => simp [mapLoop, firstOccurrences]
  | cons t rest ih =>
    by_cases ht : t ∈ uniqueMap
    · have hfilter :
          ((firstOccurrences rest).filter (fun u => u ≠ t)).filter (fun u => u ∉ uniqueMap)
            = (firstOccurrences rest).filter (fun u => u ∉ uniqueMap) := by
        rw [List.filter_filter]
        apply List.filter_congr
        intro u _
        by_cases hu : u ∈ uniqueMap
        · simp [hu]
        · have : u ≠ t := fun e => hu (e ▸ ht)
          simp [hu, this]
      simp only [mapLoop, firstOccurrences, ht, not_true_eq_false, if_false, ih]
      rw [List.filter_cons]
      simp only [ht, not_true_eq_false, decide_False, Bool.false_eq_true, if_false]
      rw [hfilter]
    · have hfilter :
          ((firstOccurrences rest).filter (fun u => u ≠ t)).filter (fun u => u ∉ uniqueMap)
            = (firstOccurrences rest).filter (fun u => u ∉ t :: uniqueMap) := by
        rw [List.filter_filter]
        apply List.filter_congr
        intro u _
        by_cases hu : u ∈ uniqueMap <;> by_cases hut : u = t <;> simp [hu, hut]
      simp only [mapLoop, firstOccurrences, ht, not_false_eq_true, if_true, ih]
      rw [List.filter_cons]
      simp only [ht, not_false_eq_true, decide_True, if_true]
      rw [hfilter]
      simp

/-- The result of `MapMessageTypes` is the image of the first occurrences of its input. -/
theorem MapMessageTypes_eq (types : List String) :
    MapMessageTypes types = (firstOccurrences types).map typesMapAt := by
  simp [MapMessageTypes, mapLoop_eq]

/-- A lookup in `typesMap` that succeeds returns one of the categories. -/
theorem lookup_mem_categories (t c : String) (h : typesMap.lookup t = some c) :
    c ∈ categories := by
  have key : ∀ (l : List (String × String)), l.lookup t = some c → c ∈ l.map Prod.snd := by
    intro l
    induction l with
    | nil => simp
    | cons e rest ih =>
      obtain ⟨k, v⟩ := e
      by_cases hk : t = k
      · subst hk
        simp [List.lookup]
        intro hv
        exact Or.inl hv.symm
      · have hb : (t == k) = false := by simpa using hk
        simp only [List.lookup, hb, List.map_cons, List.mem_cons]
        intro hl
        exact Or.inr (ih hl)
  exact key typesMap h

/-- The value read at a tag is a category, or the empty string. -/
theorem typesMapAt_mem (t : String) : typesMapAt t ∈ categories ∨ typesMapAt t = "" := by
  unfold typesMapAt
  cases h : typesMap.lookup t with
  | none => right; rfl
  | some c => left; exact lookup_mem_categories t c h

/-- A lookup in an association list succeeds exactly on its keys. -/
theorem lookup_isSome_iff (t : String) (l : List (String × String)) :
    (l.lookup t).isSome = true ↔ t ∈ l.map Prod.fst := by
  induction l with
  | nil => simp
  | cons e rest ih =>
    obtain ⟨k, v⟩ := e
    by_cases hk : t = k
    · subst hk
      simp [List.lookup]
    · have hb : (t == k) = false := by simpa using hk
      simp only [List.lookup, hb, List.map_cons, List.mem_cons, hk, false_or]
      exact ih

/-- The slot of `true` after a run of assignments, computed with a plain
accumulator. -/
theorem foldl_set_true (entries : List (Bool × String)) (m0 : BoolMap) :
    (entries.foldl (fun m e => BoolMap.set m e.1 e.2) m0) true
      = entries.foldl (fun acc e => if e.1 = true then some e.2 else acc) (m0 true) := by
  induction entries generalizing m0 with
  | nil => rfl
  | cons e rest ih =>
    simp only [List.foldl_cons]
    rw [ih]
    congr 1
    cases h : e.1 <;> simp [BoolMap.set, h]

/-- The accumulator run over eleven entries with the tags of `fieldTypes`, for
arbitrary keys: the last key that is `true` decides. -/
theorem foldl_eleven (b1 b2 b3 b4 b5 b6 b7 b8 b9 b10 b11 : Bool) :
    (List.foldl (fun (acc : Option String) (e : Bool × String) =>
        if e.1 = true then some e.2 else acc) none
      [(b1, "animation"), (b2, "text"), (b3, "audio"), (b4, "photo"), (b5, "sticker"),
       (b6, "video"), (b7, "voice"), (b8, "file"), (b9, "videoNote"), (b10, "forward"),
       (b11, "repost")]).toList
    = if b11 = true then ["repost"] else if b10 = true then ["forward"]
      else if b9 = true then ["videoNote"] else if b8 = true then ["file"]
      else if b7 = true then ["voice"] else if b6 = true then ["video"]
      else if b5 = true then ["sticker"] else if b4 = true then ["photo"]
      else if b3 = true then ["audio"] else if b2 = true then ["text"]
      else if b1 = true then ["animation"] else [] := by
  cases b11 <;> try rfl
  cases b10 <;> try rfl
  cases b9 <;> try rfl
  cases b8 <;> try rfl
  cases b7 <;> try rfl
  cases b6 <;> try rfl
  cases b5 <;> try rfl
  cases b4 <;> try rfl
  cases b3 <;> try rfl
  cases b2 <;> try rfl
  cases b1 <;> rfl

/-- The value stored under `true` in the literal of `GetMessageTypes` is the
tag of the last true condition. -/
theorem literal_true_eq_lastTrueTag (message : Message) :
    (BoolMap.literal (fieldTypeEntries message) true).toList = lastTrueTag message := by
  unfold BoolMap.literal
  rw [foldl_set_true]
  unfold fieldTypeEntries
  rw [show BoolMap.empty true = none from rfl, foldl_eleven]
  unfold lastTrueTag
  simp only [decide_eq_true_eq]

/-- A value left by the accumulator run is the value of one of the entries, or
the value it started with. -/
theorem foldl_acc_mem (entries : List (Bool × String)) (acc : Option String) (v : String)
    (h : entries.foldl (fun acc e => if e.1 = true then some e.2 else acc) acc = some v) :
    v ∈ entries.map Prod.snd ∨ acc = some v := by
  induction entries generalizing acc with
  | nil => exact Or.inr h
  | cons e rest ih =>
    rw [List.foldl_cons] at h
    rcases ih _ h with hmem | hacc
    · exact Or.inl (by simp [hmem])
    · cases he : e.1 with
      | false =>
        rw [he] at hacc
        exact Or.inr (by simpa using hacc)
      | true =>
        rw [he] at hacc
        have hv : e.2 = v := by simpa using hacc
        exact Or.inl (by simp [hv])

/-- Every tag returned by `GetMessageTypes` lies in the raw-tag vocabulary. -/
theorem GetMessageTypes_mem_vocabulary (falseFirst : Bool) (message : Message)
    (t : String) (ht : t ∈ GetMessageTypes falseFirst message) :
    t ∈ rawTagVocabulary := by
  have hsub : ∀ k ∈ ["animation", "text", "audio", "photo", "sticker", "video", "voice",
      "file", "videoNote", "forward", "repost"], k ∈ rawTagVocabulary := by decide
  by_cases h : message.EditDate = 0
  · rw [GetMessageTypes_eq falseFirst message h, Option.mem_toList] at ht
    have hget : BoolMap.literal (fieldTypeEntries message) true = some t := ht
    unfold BoolMap.literal at hget
    rw [foldl_set_true] at hget
    rcases foldl_acc_mem _ _ _ hget with hmem | hacc
    · exact hsub t hmem
    · exact absurd hacc (by simp [BoolMap.empty])
  · have hed : GetMessageTypes falseFirst message = ["edited"] := by
      unfold GetMessageTypes
      rw [if_pos h]
      rfl
    rw [hed, List.mem_singleton] at ht
    subst ht
    decide

/-- A tag outside the raw-tag vocabulary is not a key of `typesMap`. -/
theorem lookup_none_of_not_mem_vocabulary (t : String) (ht : t ∉ rawTagVocabulary) :
    typesMap.lookup t = none := by
  have hsub : ∀ k ∈ typesMap.map Prod.fst, k ∈ rawTagVocabulary := by decide
  cases h : typesMap.lookup t with
  | none => rfl
  | some c =>
    have hsome : (typesMap.lookup t).isSome = true := by simp [h]
    exact absurd (hsub t ((lookup_isSome_iff t typesMap).mp hsome)) ht

/-- The method `Validate` accepts exactly the requests with a chat id and a text. -/
theorem Validate_ok_iff (msg : MessageSend) :
    msg.Validate = none ↔ msg.ChatId ≠ 0 ∧ msg.Text ≠ "" := by
  obtain ⟨chatId, replyId, text⟩ := msg
  by_cases hc : chatId = 0 <;> by_cases ht : text = "" <;>
    simp [MessageSend.Validate, MessageSend.validationErrors, hc, ht]

/-! ## The claims -/

/-- C1: evaluation of `GetMessageTypes` on a message that is not an edit, with
`Text = "hello"` and a photo: whichever way the map is iterated, the result is
the single tag `"photo"`; the tag `"text"`, whose condition is true as well, is
not returned. -/
theorem GetMessageTypes_text_and_photo (falseFirst : Bool) :
    GetMessageTypes falseFirst { Text := "hello", Photo := some [⟨"p1"⟩] } = ["photo"]
    ∧ "text" ∉ GetMessageTypes falseFirst { Text := "hello", Photo := some [⟨"p1"⟩] } := by
  cases falseFirst <;> decide

/-- C2: for every message with `EditDate ≠ 0`, `GetMessageTypes` returns
exactly the one-element list `["edited"]`, whatever the other fields hold. -/
theorem GetMessageTypes_edited (falseFirst : Bool) (message : Message)
    (h : message.EditDate ≠ 0) :
    GetMessageTypes falseFirst message = ["edited"] := by
  simp [GetMessageTypes, h]

/-- Witness of C2: an edited message that also has a text, a photo and a
forward origin. -/
theorem GetMessageTypes_edited_witness :
    GetMessageTypes true
      { EditDate := 1700000000, Text := "hi", Photo := some [⟨"p1"⟩],
        ForwardFrom := some ⟨42⟩ } = ["edited"] :=
  GetMessageTypes_edited true _ (by decide)

/-- C3: evaluation of `MapMessageTypes` on the two distinct tags `"video"` and
`"photo"`: the category `"media"` is returned twice, so the result has a
duplicate. -/
theorem MapMessageTypes_video_photo :
    MapMessageTypes ["video", "photo"] = ["media", "media"]
    ∧ ¬ (MapMessageTypes ["video", "photo"]).Nodup := by
  decide

/-- C4, as stated, fails: the tag `"audio"` is absent from the mapping, yet
`MapMessageTypes ["audio"]` is not empty, and its element is not a category of
the mapping; a tag outside the raw-tag vocabulary, `"poll"`, is not skipped
either. -/
theorem MapMessageTypes_audio_not_skipped :
    typesMap.lookup "audio" = none
    ∧ MapMessageTypes ["audio"] = [""]
    ∧ MapMessageTypes ["audio"] ≠ []
    ∧ ¬ (∀ c ∈ MapMessageTypes ["audio"], c ∈ categories)
    ∧ typesMap.lookup "poll" = none
    ∧ MapMessageTypes ["poll"] = [""] := by
  decide

/-- C4, amended: a tag outside the closed raw-tag vocabulary is absent from the
fixed mapping and is not skipped by `MapMessageTypes`: alone it gives the
one-element result `[""]`, and inside any input list it puts the empty string
into the result. So every element of the result is one of the categories of
the mapping or the empty string. -/
theorem MapMessageTypes_absent_tag (types : List String) :
    (∀ t, t ∉ rawTagVocabulary →
        typesMap.lookup t = none ∧ MapMessageTypes [t] = [""])
    ∧ (∀ t ∈ types, t ∉ rawTagVocabulary → "" ∈ MapMessageTypes types)
    ∧ (∀ c ∈ MapMessageTypes types, c ∈ categories ∨ c = "") := by
  refine ⟨?_, ?_, ?_⟩
  · intro t ht
    have hnone := lookup_none_of_not_mem_vocabulary t ht
    refine ⟨hnone, ?_⟩
    simp [MapMessageTypes, mapLoop, typesMapAt, hnone]
  · intro t ht hvoc
    have hnone := lookup_none_of_not_mem_vocabulary t hvoc
    rw [MapMessageTypes_eq, List.mem_map]
    exact ⟨t, (mem_firstOccurrences t types).mpr ht, by simp [typesMapAt, hnone]⟩
  · intro c hc
    rw [MapMessageTypes_eq, List.mem_map] at hc
    obtain ⟨t, _, rfl⟩ := hc
    exact typesMapAt_mem t

/-- Witness of amended C4: the unknown tag `"poll"`, alone and after a mapped
tag. -/
theorem MapMessageTypes_absent_tag_witness :
    MapMessageTypes ["poll"] = [""]
    ∧ "" ∈ MapMessageTypes ["text", "poll"] :=
  ⟨((MapMessageTypes_absent_tag []).1 "poll" (by decide)).2,
   (MapMessageTypes_absent_tag ["text", "poll"]).2.1 "poll" (by decide) (by decide)⟩

/-- C5: `Validate` returns an error exactly when `ChatId = 0` or `Text = ""`;
the message names every violated rule and no other, joined with a comma; and
`ReplyToMessageId` has no influence on the result. -/
theorem Validate_reports_violations (msg : MessageSend) :
    (msg.Validate ≠ none ↔ msg.ChatId = 0 ∨ msg.Text = "")
    ∧ (msg.ChatId = 0 → msg.Text = "" → msg.Validate = some "no chat id, no text")
    ∧ (msg.ChatId ≠ 0 → msg.Text = "" → msg.Validate = some "no text")
    ∧ (msg.ChatId = 0 → msg.Text ≠ "" → msg.Validate = some "no chat id")
    ∧ (∀ r : Int, MessageSend.Validate { msg with ReplyToMessageId := r } = msg.Validate) := by
  obtain ⟨chatId, replyId, text⟩ := msg
  by_cases hc : chatId = 0 <;> by_cases ht : text = "" <;>
    simp [MessageSend.Validate, MessageSend.validationErrors, hc, ht] <;> decide

/-- Witness of C5: the three failing shapes of a request, each with a reply
target set. -/
theorem Validate_reports_violations_witness :
    MessageSend.Validate { ChatId := 0, ReplyToMessageId := 9, Text := "" }
      = some "no chat id, no text"
    ∧ MessageSend.Validate { ChatId := 123, ReplyToMessageId := 9, Text := "" }
      = some "no text"
    ∧ MessageSend.Validate { ChatId := 0, ReplyToMessageId := 9, Text := "ok" }
      = some "no chat id" :=
  ⟨(Validate_reports_violations { ChatId := 0, ReplyToMessageId := 9, Text := "" }).2.1
      (by decide) (by decide),
   (Validate_reports_violations { ChatId := 123, ReplyToMessageId := 9, Text := "" }).2.2.1
      (by decide) (by decide),
   (Validate_reports_violations { ChatId := 0, ReplyToMessageId := 9, Text := "ok" }).2.2.2.1
      (by decide) (by decide)⟩

/-- C6: for one command string taken from the broker, the loop makes no
platform call when decoding fails or when the decoded request has `ChatId = 0`
or an empty `Text`; otherwise it makes exactly one platform call and does
nothing else: `ReplyToMessage(ChatId, ReplyToMessageId, Text)` when
`ReplyToMessageId ≠ 0`, and `Send(ChatId, Text)` when `ReplyToMessageId = 0`. -/
theorem handleCommand_dispatch
    (unmarshal : String → MessageSend → Except String MessageSend) (str : String) :
    (∀ err, unmarshal str {} = .error err → platformCalls unmarshal str = [])
    ∧ (∀ m, unmarshal str {} = .ok m →
        ((m.ChatId = 0 ∨ m.Text = "") → platformCalls unmarshal str = [])
        ∧ (m.ChatId ≠ 0 → m.Text ≠ "" → m.ReplyToMessageId ≠ 0 →
            handleCommand unmarshal str
                = [Effect.ReplyToMessage m.ChatId m.ReplyToMessageId m.Text]
            ∧ platformCalls unmarshal str
                = [Effect.ReplyToMessage m.ChatId m.ReplyToMessageId m.Text])
        ∧ (m.ChatId ≠ 0 → m.Text ≠ "" → m.ReplyToMessageId = 0 →
            handleCommand unmarshal str = [Effect.Send m.ChatId m.Text]
            ∧ platformCalls unmarshal str = [Effect.Send m.ChatId m.Text])) := by
  refine ⟨?_, ?_⟩
  · intro err h
    simp [platformCalls, handleCommand, MessageSend.PopulateFromJson, h,
      Effect.isPlatformCall]
  · intro m h
    have hv := Validate_ok_iff m
    refine ⟨?_, ?_, ?_⟩
    · intro hbad
      have hsome : m.Validate ≠ none := by
        intro e
        have hok := hv.mp e
        cases hbad with
        | inl h0 => exact hok.1 h0
        | inr h1 => exact hok.2 h1
      cases hval : m.Validate with
      | none => exact absurd hval hsome
      | some e =>
        simp [platformCalls, handleCommand, MessageSend.PopulateFromJson, h, hval,
          Effect.isPlatformCall]
    · intro hc ht hr
      have hval : m.Validate = none := hv.mpr ⟨hc, ht⟩
      simp [platformCalls, handleCommand, MessageSend.PopulateFromJson, h, hval, hr,
        Effect.isPlatformCall]
    · intro hc ht hr
      have hval : m.Validate = none := hv.mpr ⟨hc, ht⟩
      simp [platformCalls, handleCommand, MessageSend.PopulateFromJson, h, hval, hr,
        Effect.isPlatformCall]

/-- Witness of C6: a reply command, a plain command, a command that fails
validation and a text that does not decode. -/
theorem handleCommand_dispatch_witness :
    platformCalls sampleUnmarshal "reply" = [Effect.ReplyToMessage 555 9 "ok"]
    ∧ platformCalls sampleUnmarshal "send" = [Effect.Send 555 "ok"]
    ∧ platformCalls sampleUnmarshal "empty" = []
    ∧ platformCalls sampleUnmarshal "chatId=555" = [] :=
  ⟨((handleCommand_dispatch sampleUnmarshal "reply").2
      { ChatId := 555, ReplyToMessageId := 9, Text := "ok" } rfl).2.1
      (by decide) (by decide) (by decide) |>.2,
   ((handleCommand_dispatch sampleUnmarshal "send").2
      { ChatId := 555, ReplyToMessageId := 0, Text := "ok" } rfl).2.2
      (by decide) (by decide) (by decide) |>.2,
   ((handleCommand_dispatch sampleUnmarshal "empty").2
      { ChatId := 0, ReplyToMessageId := 0, Text := "" } rfl).1
      (Or.inl (by decide)),
   (handleCommand_dispatch sampleUnmarshal "chatId=555").1 "invalid character" rfl⟩

/-- C7: `GetUpdateMessage` returns the new message when there is one, whether
or not an edited message is there too; else the edited message when there is
one; it fails exactly when both are absent; and two updates with the same two
message slots give the same result. -/
theorem GetUpdateMessage_precedence (update : Update) :
    (∀ m, update.Message = some m → GetUpdateMessage update = .ok m)
    ∧ (∀ m, update.Message = none → update.EditedMessage = some m →
        GetUpdateMessage update = .ok m)
    ∧ ((∃ err, GetUpdateMessage update = .error err)
        ↔ update.Message = none ∧ update.EditedMessage = none)
    ∧ (∀ other : Update, other.Message = update.Message →
        other.EditedMessage = update.EditedMessage →
        GetUpdateMessage other = GetUpdateMessage update) := by
  obtain ⟨uid, msg, edited, post, editedPost⟩ := update
  refine ⟨?_, ?_, ?_, ?_⟩
  · intro m h
    simp only at h
    simp [GetUpdateMessage, h]
  · intro m h1 h2
    simp only at h1 h2
    simp [GetUpdateMessage, h1, h2]
  · cases msg <;> cases edited <;> simp [GetUpdateMessage]
  · intro other h1 h2
    simp only at h1 h2
    simp [GetUpdateMessage, h1, h2]

/-- Witness of C7: an update that carries both a new and an edited message, and
one that carries only an edited message next to a channel post. -/
theorem GetUpdateMessage_precedence_witness :
    GetUpdateMessage
        { UpdateID := 1, Message := some { MessageID := 10, Text := "new" },
          EditedMessage := some { MessageID := 11, EditDate := 5, Text := "old" } }
      = .ok { MessageID := 10, Text := "new" }
    ∧ GetUpdateMessage
        { UpdateID := 2, EditedMessage := some { MessageID := 11, EditDate := 5 },
          ChannelPost := some { MessageID := 12 } }
      = .ok { MessageID := 11, EditDate := 5 } :=
  ⟨(GetUpdateMessage_precedence _).1 _ rfl,
   (GetUpdateMessage_precedence _).2.1 _ rfl rfl⟩

/-- C8: for every message, the category list that `HandleUpdate` puts into
the payload, `MapMessageTypes (GetMessageTypes message)`, has no duplicate
entries, whichever way the map of `GetMessageTypes` is iterated. -/
theorem payload_types_nodup (falseFirst : Bool) (message : Message) :
    (MapMessageTypes (GetMessageTypes falseFirst message)).Nodup := by
  have hlen := GetMessageTypes_length_le falseFirst message
  match hl : GetMessageTypes falseFirst message with
  | [] => simp [MapMessageTypes, mapLoop]
  | [t] => simp [MapMessageTypes, mapLoop]
  | a :: b :: rest =>
    rw [hl] at hlen
    simp at hlen

/-- C9: the mapping `typesMap` is defined on exactly the eleven raw tags of the
canonical taxonomy, each written once; two of these tags have the same
category exactly when they lie in the same canonical group; and the mapping
has exactly seven distinct categories. -/
theorem typesMap_grouping :
    (∀ t : String, (typesMap.lookup t).isSome = true ↔ t ∈ canonicalTags)
    ∧ (typesMap.map Prod.fst).Nodup
    ∧ canonicalTags.length = 11
    ∧ (∀ a ∈ canonicalTags, ∀ b ∈ canonicalTags,
        (typesMap.lookup a = typesMap.lookup b ↔ ∃ g ∈ canonicalGroups, a ∈ g ∧ b ∈ g))
    ∧ categories.dedup.length = 7 := by
  refine ⟨?_, by decide, by decide, by decide, by decide⟩
  intro t
  rw [lookup_isSome_iff]
  have hkeys : typesMap.map Prod.fst = canonicalTags := by decide
  rw [hkeys]

/-- Witness of C9: `"video"` and `"photo"` share a group and a category;
`"video"` and `"text"` do neither. -/
theorem typesMap_grouping_witness :
    typesMap.lookup "video" = typesMap.lookup "photo"
    ∧ ¬ (∃ g ∈ canonicalGroups, "video" ∈ g ∧ "text" ∈ g) :=
  ⟨(typesMap_grouping.2.2.2.1 "video" (by decide) "photo" (by decide)).mpr
      ⟨["video", "photo", "file"], by decide, by decide, by decide⟩,
   fun h => absurd
      ((typesMap_grouping.2.2.2.1 "video" (by decide) "text" (by decide)).mpr h)
      (by decide)⟩

/-- C10: `GetMessageTypes` returns at most one raw tag. For a message that is
not an edit the result is fixed by the fields of the message: it is the single
tag of the last condition that holds, in the order animation (`Animation`),
text (`Text`), audio (`Audio`), photo (`Photo`), sticker (`Sticker`), video
(`Video`), voice (`Voice`), file (`Document`), videoNote (`VideoNote`),
forward (`ForwardFrom`), repost (`ForwardFromChat`), and it is empty when no
condition holds. The conditions are the keys of one `map[bool]string`
literal, so a later entry with the key `true` replaces an earlier one. -/
theorem GetMessageTypes_last_true (falseFirst : Bool) (message : Message) :
    (GetMessageTypes falseFirst message).length ≤ 1
    ∧ (message.EditDate = 0 → GetMessageTypes falseFirst message = lastTrueTag message)
    ∧ (message.EditDate = 0 →
        (message.ForwardFromChat ≠ none → GetMessageTypes falseFirst message = ["repost"])
        ∧ (message.ForwardFromChat = none → message.ForwardFrom = none →
            message.VideoNote = none → message.Document = none →
            message.Voice = none → message.Video = none → message.Sticker = none →
            message.Photo = none → message.Audio = none →
            (message.Text ≠ "" → GetMessageTypes falseFirst message = ["text"])
            ∧ (message.Text = "" → message.Animation ≠ none →
                GetMessageTypes falseFirst message = ["animation"])
            ∧ (message.Text = "" → message.Animation = none →
                GetMessageTypes falseFirst message = [])))
    ∧ (fieldTypeEntries message).map Prod.snd
        = ["animation", "text", "audio", "photo", "sticker", "video", "voice",
           "file", "videoNote", "forward", "repost"]
    ∧ (message.EditDate = 0 →
        ((∀ e ∈ fieldTypeEntries message, e.1 = false) →
            GetMessageTypes falseFirst message = [])
        ∧ (∀ (pre post : List (Bool × String)) (tag : String),
            fieldTypeEntries message = pre ++ (true, tag) :: post →
            (∀ e ∈ post, e.1 = false) →
            GetMessageTypes falseFirst message = [tag])) := by
  have hmain : message.EditDate = 0 →
      GetMessageTypes falseFirst message = lastTrueTag message := by
    intro hedit
    rw [GetMessageTypes_eq falseFirst message hedit, literal_true_eq_lastTrueTag]
  refine ⟨GetMessageTypes_length_le falseFirst message, hmain, ?_, rfl, ?_⟩
  · intro hedit
    rw [hmain hedit]
    refine ⟨?_, ?_⟩
    · intro h
      simp [lastTrueTag, h]
    · intro h11 h10 h9 h8 h7 h6 h5 h4 h3
      refine ⟨?_, ?_, ?_⟩
      · intro h2
        simp [lastTrueTag, h11, h10, h9, h8, h7, h6, h5, h4, h3, h2]
      · intro h2 h1
        simp [lastTrueTag, h11, h10, h9, h8, h7, h6, h5, h4, h3, h2, h1]
      · intro h2 h1
        simp [lastTrueTag, h11, h10, h9, h8, h7, h6, h5, h4, h3, h2, h1]
  · intro hedit
    rw [GetMessageTypes_eq falseFirst message hedit]
    refine ⟨?_, ?_⟩
    · intro hall
      rw [literal_true_of_all_false _ hall]
      rfl
    · intro pre post tag hsplit hpost
      rw [hsplit, literal_true_of_last pre post tag hpost]
      rfl

/-- Witness of C10: a message with a text, a sticker and a forward origin, where
the last condition that holds is the one of `"forward"`; a message with only a
text; and a message with nothing set. -/
theorem GetMessageTypes_last_true_witness :
    GetMessageTypes false
      { Text := "hello", Sticker := some ⟨"s1"⟩, ForwardFrom := some ⟨42⟩ } = ["forward"]
    ∧ GetMessageTypes true { Text := "hi" } = ["text"]
    ∧ GetMessageTypes true {} = [] :=
  ⟨((GetMessageTypes_last_true false
      { Text := "hello", Sticker := some ⟨"s1"⟩, ForwardFrom := some ⟨42⟩ }).2.1 rfl).trans
      (by decide),
   ((GetMessageTypes_last_true true { Text := "hi" }).2.2.1 rfl).2
      rfl rfl rfl rfl rfl rfl rfl rfl rfl |>.1 (by decide),
   ((GetMessageTypes_last_true true {}).2.2.2.2 rfl).1 (by decide)⟩

end TelegramBot
